import Mathlib

/-!
# Verification of the DeferredShading frame-synchronization core

The repository's visible source is the orchestration header
`src/DeferredShading/app.h`, which declares the `App` class: the frame-slot
array `frames_[kNumFrames]` (each `Frame` holding a command allocator, the
per-slot render targets and a `fence_value`), the shared fence state
(`fence_`, `latest_fence_value_`, `fence_event_`), the single app-level
`depth_stencil_` resource, the staging-buffer collection `upload_buffers_`,
and the operations `RenderFrame`, `MoveToNextFrame`, `WaitForGpu`,
`UploadDataToBuffer` and `Cleanup`.

The bodies of those operations (app.cpp), the pass implementations and
`constants.h` are not part of the visible source, so the dynamic behaviour is
modelled from the specification's description of the fence protocol
(`advance` / `submit` / `flush_all`), the uploader contract and the
error-propagation policy, while the static resource-ownership layout is taken
directly from the header.
-/

namespace DeferredShading

/-- Modelled from the spec (the bodies of `MoveToNextFrame`, `WaitForGpu` and
the submission path in app.cpp are not under src/; the fields mirror
`frame_index_`, `latest_fence_value_`, `Frame::fence_value` and the GPU-reported
completed counter of `fence_` from src/DeferredShading/app.h).
`numFrames` is the compile-time slot count `kNumFrames` (constants.h is also
absent), fixed at initialization.  `fenceValues` has one entry per slot:
the fence value that will be signaled when that slot's most recent submission
finishes.  `completed` is the fence's GPU-reported completed counter. -/
structure SchedState where
  numFrames : Nat
  frameIndex : Nat
  latestFenceValue : Nat
  fenceValues : List Nat
  completed : Nat
  deriving Repr, DecidableEq

/-- The freshly constructed state: `frame_index_ = 0`, `latest_fence_value_ = 0`
and every `Frame::fence_value = 0`, as in the in-class initializers of
src/DeferredShading/app.h; the fence starts with completed counter 0. -/
def initState (n : Nat) : SchedState :=
  { numFrames := n
    frameIndex := 0
    latestFenceValue := 0
    fenceValues := List.replicate n 0
    completed := 0 }

/-- The stored fence value of slot `i` (0 for an out-of-range index). -/
def storedFence (s : SchedState) (i : Nat) : Nat :=
  s.fenceValues.getD i 0

/-- Modelled from the spec: a slot is safe to reuse iff the GPU-reported
completed counter is at least the slot's stored fence value
(`signaled_counter ≥ stored_value`). -/
def reuseSafe (s : SchedState) (i : Nat) : Bool :=
  decide (storedFence s i ≤ s.completed)

/-- Modelled from the spec: `submit` assigns a new strictly-increasing fence
value (`latest_fence_value_ + 1`) to the current slot, submits the recorded
command stream and enqueues the fence signal for that value. -/
def submit (s : SchedState) : SchedState :=
  { s with
    latestFenceValue := s.latestFenceValue + 1
    fenceValues := s.fenceValues.set s.frameIndex (s.latestFenceValue + 1) }

/-- The slot index `advance` moves to: `(current + 1) mod kNumFrames`. -/
def nextIndex (s : SchedState) : Nat :=
  (s.frameIndex + 1) % s.numFrames

/-- The fence value `advance` must wait for: the stored fence value of the
slot being entered. -/
def advanceTarget (s : SchedState) : Nat :=
  storedFence s (nextIndex s)

/-- Whether `advance` has to block: true iff the GPU-reported completed counter
has not yet reached the next slot's stored fence value at the moment of the
call. -/
def advanceBlocks (s : SchedState) : Bool :=
  decide (s.completed < advanceTarget s)

/-- Modelled from the spec: `advance` (`MoveToNextFrame`) selects the next slot
index `(current+1) mod N` and blocks until the GPU-reported completed counter
reaches that slot's stored fence value; on return the wait has been satisfied,
so the completed counter is at least the target. -/
def advance (s : SchedState) : SchedState :=
  { s with
    frameIndex := nextIndex s
    completed := max s.completed (advanceTarget s) }

/-- The fence value `flush_all` waits for: the maximum of all slots' stored
fence values. -/
def flushTarget (s : SchedState) : Nat :=
  s.fenceValues.foldr max 0

/-- Whether `flush_all` has to block (i.e. performs GPU waiting work): true iff
some slot's stored fence value exceeds the completed counter. -/
def flushBlocks (s : SchedState) : Bool :=
  decide (s.completed < flushTarget s)

/-- Modelled from the spec: `flush_all` (`WaitForGpu`) blocks until every
slot's latest fence value is reached by the GPU-reported completed counter. -/
def flushAll (s : SchedState) : SchedState :=
  { s with completed := max s.completed (flushTarget s) }

/-- The scheduler-facing operations, plus an asynchronous GPU progress step:
the GPU may complete work up to any already-signaled fence value. -/
inductive Op where
  | submit : Op
  | advance : Op
  | flush : Op
  | gpu : Nat → Op
  deriving Repr, DecidableEq

/-- One step of the scheduler/GPU system.  `gpu k` raises the completed
counter toward `k`, clamped at the latest signaled value (only enqueued
signals can complete). -/
def applyOp : Op → SchedState → SchedState
  | Op.submit, s => submit s
  | Op.advance, s => advance s
  | Op.flush, s => flushAll s
  | Op.gpu k, s => { s with completed := max s.completed (min k s.latestFenceValue) }

/-- Run a sequence of operations from a state. -/
def run (ops : List Op) (s : SchedState) : SchedState :=
  ops.foldl (fun t op => applyOp op t) s

/-- The fence values assigned at each `submit` during a run, in submission
order. -/
def assignedValues : List Op → SchedState → List Nat
  | [], _ => []
  | Op.submit :: ops, s => (s.latestFenceValue + 1) :: assignedValues ops (submit s)
  | op :: ops, s => assignedValues ops (applyOp op s)

/-! ## Render-frame structure

`RenderFrame` is declared in src/DeferredShading/app.h (line 38); its body and
the pass implementations are not under src/, so the per-frame action sequence
is modelled from the spec: advance to the next slot, record ShadowPass then
GeometryPass then LightingPass into one ordered command stream, submit that
stream once, present. -/

/-- The three render passes, in the roles declared by
src/DeferredShading/app.h (`shadow_pass_`, `geometry_pass_`,
`lighting_pass_`). -/
inductive Pass where
  | shadowPass : Pass
  | geometryPass : Pass
  | lightingPass : Pass
  deriving Repr, DecidableEq

/-- The externally observable actions of one `RenderFrame` call. -/
inductive FrameAction where
  | advanceSlot : FrameAction
  | record : Pass → FrameAction
  | submitStream : List Pass → FrameAction
  | present : FrameAction
  deriving Repr, DecidableEq

/-- Whether an action is a submission. -/
def FrameAction.isSubmit : FrameAction → Bool
  | FrameAction.submitStream _ => true
  | _ => false

/-- Modelled from the spec (`RenderFrame`'s body is not under src/):
one frame's work in fixed order — advance, record the three passes into one
ordered command stream, submit once, present.  The scheduler state is advanced
once and then given one new submission. -/
def renderFrame (s : SchedState) : SchedState × List FrameAction :=
  (submit (advance s),
    [FrameAction.advanceSlot,
     FrameAction.record Pass.shadowPass,
     FrameAction.record Pass.geometryPass,
     FrameAction.record Pass.lightingPass,
     FrameAction.submitStream [Pass.shadowPass, Pass.geometryPass, Pass.lightingPass],
     FrameAction.present])

/-! ## Resource ownership

The ownership layout is taken directly from src/DeferredShading/app.h:
each `Frame` (lines 103–116) owns its command allocator, swap-chain buffer,
gbuffer, the three attribute gbuffers (`pos_gbuffer`, `diffuse_gbuffer`,
`normal_gbuffer`) and a shadow cubemap, while `depth_stencil_` (line 101) is a
single member of `App`, outside the `Frame` struct. -/

/-- One GPU resource of the `App`, identified by the owning member of
src/DeferredShading/app.h.  Per-`Frame` members carry their slot index;
`depthStencil` models the single app-level `depth_stencil_` member. -/
inductive GpuResource where
  | commandAllocator : Nat → GpuResource
  | swapChainBuffer : Nat → GpuResource
  | gbuffer : Nat → GpuResource
  | posGbuffer : Nat → GpuResource
  | diffuseGbuffer : Nat → GpuResource
  | normalGbuffer : Nat → GpuResource
  | shadowCubemap : Nat → GpuResource
  | depthStencil : GpuResource
  deriving Repr, DecidableEq

/-- The resources held inside `frames_[slot]` per the `Frame` struct of
src/DeferredShading/app.h lines 103–116. -/
def frameOwnedResources (slot : Nat) : List GpuResource :=
  [GpuResource.commandAllocator slot,
   GpuResource.swapChainBuffer slot,
   GpuResource.gbuffer slot,
   GpuResource.posGbuffer slot,
   GpuResource.diffuseGbuffer slot,
   GpuResource.normalGbuffer slot,
   GpuResource.shadowCubemap slot]

/-- Modelled from the spec (geometry_pass.h's implementation is not under
src/): the GPU targets GeometryPass writes for a slot are the three attribute
color targets — position, diffuse albedo, normal — plus the depth target.  The
color targets are the slot's `pos_gbuffer`/`diffuse_gbuffer`/`normal_gbuffer`;
the depth target is the app-level `depth_stencil_`
(src/DeferredShading/app.h line 101), the only depth resource besides the
per-slot shadow cubemap. -/
def geometryWriteTargets (slot : Nat) : List GpuResource :=
  [GpuResource.posGbuffer slot,
   GpuResource.diffuseGbuffer slot,
   GpuResource.normalGbuffer slot,
   GpuResource.depthStencil]

/-- The three attribute-buffer color targets of a slot: its `pos_gbuffer`,
`diffuse_gbuffer` and `normal_gbuffer` (src/DeferredShading/app.h
lines 109–111). -/
def geometryColorTargets (slot : Nat) : List GpuResource :=
  [GpuResource.posGbuffer slot,
   GpuResource.diffuseGbuffer slot,
   GpuResource.normalGbuffer slot]

/-! ## Resource uploading

`UploadDataToBuffer` is declared in src/DeferredShading/app.h (line 59) and
`upload_buffers_` (line 99) is the process-owned staging collection; the body
is not under src/, so the uploader is modelled from the spec's contract. -/

/-- A byte sequence. -/
abbrev Bytes := List Nat

/-- A staging (upload) buffer: its allocation size and its contents. -/
structure StagingBuffer where
  size : Nat
  contents : Bytes
  deriving Repr, DecidableEq

/-- A recorded staging-to-destination copy command: index of the staging
buffer in the collection, destination buffer id, byte count. -/
structure CopyCmd where
  src : Nat
  dst : Nat
  size : Nat
  deriving Repr, DecidableEq

/-- The uploader state: the retained staging collection (`upload_buffers_`),
the copy commands recorded but not yet executed, and the contents of the
destination (device-local) buffers, indexed by buffer id. -/
structure UploadState where
  uploadBuffers : List StagingBuffer
  pendingCopies : List CopyCmd
  dstBuffers : List Bytes
  deriving Repr, DecidableEq

/-- Modelled from the spec (`UploadDataToBuffer`'s body is not under src/):
`upload(data, size, destination)` creates a staging buffer sized ≥ `size`
holding a copy of `data`, records a copy command from it to the destination,
and retains the staging buffer in the process-owned collection. -/
def uploadDataToBuffer (data : Bytes) (dst : Nat) (s : UploadState) : UploadState :=
  { s with
    uploadBuffers := s.uploadBuffers ++ [⟨data.length, data⟩]
    pendingCopies := s.pendingCopies ++ [⟨s.uploadBuffers.length, dst, data.length⟩] }

/-- Execute one staging-to-destination copy on the GPU: the first `size` bytes
of the destination become the staging buffer's first `size` bytes; bytes past
`size` are untouched. -/
def applyCopy (ubs : List StagingBuffer) (bufs : List Bytes) (c : CopyCmd) : List Bytes :=
  let staging := ubs.getD c.src ⟨0, []⟩
  bufs.set c.dst (staging.contents.take c.size ++ (bufs.getD c.dst []).drop c.size)

/-- Modelled from the spec: a caller-triggered full flush executes every
pending copy in recorded order and, completion now proven, releases the
staging collection. -/
def flushUploads (s : UploadState) : UploadState :=
  { uploadBuffers := []
    pendingCopies := []
    dstBuffers := s.pendingCopies.foldl (applyCopy s.uploadBuffers) s.dstBuffers }

/-- Read the destination buffer `dst` back: its full contents. -/
def readBack (s : UploadState) (dst : Nat) : Bytes :=
  s.dstBuffers.getD dst []

/-- Sanity of one recorded copy command with respect to the staging
collection and the destination buffers: it references an existing staging
buffer whose contents are exactly its copy size, and its destination exists
and is sized to hold it (the spec's precondition that the destination is
already sized for the data). -/
def copyOK (ubs : List StagingBuffer) (bufs : List Bytes) (c : CopyCmd) : Prop :=
  c.src < ubs.length ∧
  (ubs.getD c.src ⟨0, []⟩).contents.length = c.size ∧
  c.dst < bufs.length ∧
  c.size ≤ (bufs.getD c.dst []).length

instance (ubs : List StagingBuffer) (bufs : List Bytes) (c : CopyCmd) :
    Decidable (copyOK ubs bufs c) := by
  unfold copyOK; infer_instance

/-- Well-formedness of the uploader state: every pending copy is sane. -/
def uploadWF (s : UploadState) : Prop :=
  ∀ c ∈ s.pendingCopies, copyOK s.uploadBuffers s.dstBuffers c

/-! ## Errors and cleanup

`Cleanup` (src/DeferredShading/app.h line 36) and the failure behaviour of the
fence paths are not under src/; they are modelled from the spec's error
taxonomy and propagation policy. -/

/-- Fatal runtime error: the underlying synchronization primitive failed,
treated as unrecoverable device loss. -/
inductive FatalError where
  | deviceLost : FatalError
  deriving Repr, DecidableEq

/-- A pass-recording failure, identified by the pass that failed. -/
inductive RecordError where
  | passFailed : Pass → RecordError
  deriving Repr, DecidableEq

/-- Fault-injection flags for the three recording steps of a frame. -/
structure PassFaults where
  shadowOk : Bool
  geometryOk : Bool
  lightingOk : Bool
  deriving Repr, DecidableEq

/-- Modelled from the spec: `advance` fails fatally (device loss) when the
synchronization primitive signals an error; `fenceOk` injects that fault. -/
def advanceE (fenceOk : Bool) (s : SchedState) : Except FatalError SchedState :=
  if fenceOk then Except.ok (advance s) else Except.error FatalError.deviceLost

/-- Modelled from the spec: `submit` escalates a synchronization-primitive
failure directly to the caller as fatal. -/
def submitE (fenceOk : Bool) (s : SchedState) : Except FatalError SchedState :=
  if fenceOk then Except.ok (submit s) else Except.error FatalError.deviceLost

/-- Modelled from the spec: `flush_all` escalates a synchronization-primitive
failure directly to the caller as fatal. -/
def flushAllE (fenceOk : Bool) (s : SchedState) : Except FatalError SchedState :=
  if fenceOk then Except.ok (flushAll s) else Except.error FatalError.deviceLost

/-- Record the three passes in order into one command stream; the first
failing recording step aborts the whole frame's recording. -/
def recordPasses (f : PassFaults) : Except RecordError (List Pass) :=
  if ¬ f.shadowOk then Except.error (RecordError.passFailed Pass.shadowPass)
  else if ¬ f.geometryOk then Except.error (RecordError.passFailed Pass.geometryPass)
  else if ¬ f.lightingOk then Except.error (RecordError.passFailed Pass.lightingPass)
  else Except.ok [Pass.shadowPass, Pass.geometryPass, Pass.lightingPass]

/-- Modelled from the spec: `RenderFrame` with fault injection.  A
synchronization failure in advance or submit escalates as fatal; a failure in
any pass's recording aborts the frame before anything is submitted.  On
success it returns the new scheduler state and the one submitted stream. -/
def renderFrameE (fenceOk : Bool) (f : PassFaults) (s : SchedState) :
    Except (FatalError ⊕ RecordError) (SchedState × List Pass) :=
  match advanceE fenceOk s with
  | Except.error e => Except.error (Sum.inl e)
  | Except.ok s1 =>
    match recordPasses f with
    | Except.error e => Except.error (Sum.inr e)
    | Except.ok cmds =>
      match submitE fenceOk s1 with
      | Except.error e => Except.error (Sum.inl e)
      | Except.ok s2 => Except.ok (s2, cmds)

/-- The command streams a `renderFrameE` call submitted: one on success,
none on any failure. -/
def submissionsOf (r : Except (FatalError ⊕ RecordError) (SchedState × List Pass)) :
    List (List Pass) :=
  match r with
  | Except.ok (_, cmds) => [cmds]
  | Except.error _ => []

/-- The whole application state `Cleanup` acts on: the scheduler/fence state
and the collection of still-owned GPU resources. -/
structure AppState where
  sched : SchedState
  resources : List GpuResource
  deriving Repr, DecidableEq

/-- Modelled from the spec (`Cleanup`'s body is not under src/): `Cleanup`
performs `flush_all` and then releases every owned resource.  It is a total
function of the state, so it is callable on any state, including one left by
a partially failed `Initialize`. -/
def cleanup (a : AppState) : AppState :=
  { sched := flushAll a.sched, resources := [] }

/-- The GPU work a `Cleanup` call performs: blocking on the fence.  True iff
its `flush_all` has to wait. -/
def cleanupGpuWork (a : AppState) : Bool :=
  flushBlocks a.sched

/-- A state left by an `Initialize` that failed after creating only the first
`k` of the resources of the first `n` frame slots (the scheduler state still
fresh, nothing submitted). -/
def partialInitState (n k : Nat) : AppState :=
  { sched := initState n
    resources := ((List.range n).flatMap frameOwnedResources).take k }

/-! ## Helper lemmas -/

/-- Every element of a list of naturals is bounded by its `foldr max 0`. -/
lemma le_foldr_max (l : List Nat) (x : Nat) (hx : x ∈ l) : x ≤ l.foldr max 0 := by
  induction l with
  | nil => cases hx
  | cons a l ih =>
    rcases List.mem_cons.mp hx with h | h
    · exact h ▸ Nat.le_max_left _ _
    · exact Nat.le_trans (ih h) (Nat.le_max_right _ _)

/-- Every slot's stored fence value is bounded by the flush target. -/
lemma storedFence_le_flushTarget (s : SchedState) (i : Nat) :
    storedFence s i ≤ flushTarget s := by
  by_cases h : i < s.fenceValues.length
  · have hmem : s.fenceValues.getD i 0 ∈ s.fenceValues := by
      rw [List.getD_eq_getElem s.fenceValues 0 h]
      exact s.fenceValues.getElem_mem h
    exact le_foldr_max _ _ hmem
  · have : storedFence s i = 0 := by
      simp [storedFence, List.getD, List.getElem?_eq_none (Nat.le_of_not_lt h)]
    simp [this]

/-- `flushAll` changes only the completed counter. -/
lemma storedFence_flushAll (s : SchedState) (i : Nat) :
    storedFence (flushAll s) i = storedFence s i := rfl

/-- `flushAll` is idempotent. -/
lemma flushAll_idem (s : SchedState) : flushAll (flushAll s) = flushAll s := by
  cases s
  simp only [flushAll, flushTarget]
  congr 1
  omega

/-- The flush target of the fresh state is zero. -/
lemma flushTarget_initState (n : Nat) : flushTarget (initState n) = 0 := by
  simp only [flushTarget, initState]
  induction n with
  | zero => rfl
  | succ m ih => simpa [List.replicate_succ] using ih

/-- `flushAll` does nothing on the fresh state. -/
lemma flushAll_initState (n : Nat) : flushAll (initState n) = initState n := by
  simp only [flushAll, flushTarget_initState, Nat.max_zero]

/-! ## Theorems about the claims -/

/-- C3: after `flush_all` (`WaitForGpu`) returns, every frame slot's last
recorded fence value has been reached by the GPU-reported completed
counter. -/
theorem waitForGpu_reaches_every_slot (s : SchedState) (i : Nat) :
    storedFence (flushAll s) i ≤ (flushAll s).completed := by
  have h := storedFence_le_flushTarget s i
  have h2 : flushTarget s ≤ (flushAll s).completed := Nat.le_max_right _ _
  exact Nat.le_trans h h2

/-- C2: `advance` (`MoveToNextFrame`) never returns a frame slot whose
previously recorded fence value has not yet been reached by the GPU-completed
counter; in particular, with 2 slots, after submitting frames 0 and 1 the
advance for frame 2 must block and returns slot 0 only with frame 0's fence
value (1) observed complete. -/
theorem moveToNextFrame_returns_safe_slot :
    (∀ s : SchedState,
      storedFence (advance s) (advance s).frameIndex ≤ (advance s).completed) ∧
    (storedFence (submit (initState 2)) 0 = 1 ∧
      advanceBlocks (submit (initState 2)) = false ∧
      advanceBlocks (submit (advance (submit (initState 2)))) = true ∧
      (advance (submit (advance (submit (initState 2))))).frameIndex = 0 ∧
      1 ≤ (advance (submit (advance (submit (initState 2))))).completed) := by
  constructor
  · intro s
    exact Nat.le_max_right _ _
  · decide

/-- C4: every `RenderFrame` call performs exactly one frame's work in fixed
order — advance, record ShadowPass then GeometryPass then LightingPass into
one ordered command stream, submit that stream once, then present — and no
command is submitted before all three passes are recorded (all three records
lie in the prefix before the first submission). -/
theorem renderFrame_fixed_order (s : SchedState) :
    (renderFrame s).2 =
      [FrameAction.advanceSlot,
       FrameAction.record Pass.shadowPass,
       FrameAction.record Pass.geometryPass,
       FrameAction.record Pass.lightingPass,
       FrameAction.submitStream [Pass.shadowPass, Pass.geometryPass, Pass.lightingPass],
       FrameAction.present] ∧
    (renderFrame s).1 = submit (advance s) ∧
    (renderFrame s).2.filter FrameAction.isSubmit =
      [FrameAction.submitStream [Pass.shadowPass, Pass.geometryPass, Pass.lightingPass]] ∧
    (FrameAction.record Pass.shadowPass ∈
        (renderFrame s).2.takeWhile (fun a => ! a.isSubmit) ∧
      FrameAction.record Pass.geometryPass ∈
        (renderFrame s).2.takeWhile (fun a => ! a.isSubmit) ∧
      FrameAction.record Pass.lightingPass ∈
        (renderFrame s).2.takeWhile (fun a => ! a.isSubmit)) := by
  refine ⟨rfl, rfl, rfl, ?_, ?_, ?_⟩ <;>
    · simp only [renderFrame]
      decide

/-- C5 counterexample: as stated the claim is false — the depth target the
GeometryPass writes is the app-level `depth_stencil_`, which appears in the
write-target set of every slot, so the geometry write targets of slots 0 and 1
are not disjoint. -/
theorem geometry_depth_target_shared :
    GpuResource.depthStencil ∈ geometryWriteTargets 0 ∧
    GpuResource.depthStencil ∈ geometryWriteTargets 1 ∧
    ¬ (∀ r ∈ geometryWriteTargets 0, r ∉ geometryWriteTargets 1) := by
  decide

/-- C5 amended: the resources held inside a `Frame` are never aliased across
slots, and the three attribute-buffer color targets the GeometryPass writes
are per-slot resources, distinct from each other and across slots; the depth
target, however, is the single app-level `depth_stencil_`, shared by every
slot and owned by none of them. -/
theorem per_slot_resources_unaliased (i j : Nat) (hij : i ≠ j) :
    (∀ r ∈ frameOwnedResources i, r ∉ frameOwnedResources j) ∧
    (∀ r ∈ geometryColorTargets i, r ∉ geometryColorTargets j) ∧
    (geometryColorTargets i).Nodup ∧
    (∀ r ∈ geometryColorTargets i, r ∈ frameOwnedResources i) ∧
    GpuResource.depthStencil ∈ geometryWriteTargets i ∧
    GpuResource.depthStencil ∈ geometryWriteTargets j ∧
    GpuResource.depthStencil ∉ frameOwnedResources i := by
  refine ⟨?_, ?_, ?_, ?_, ?_, ?_, ?_⟩ <;>
    simp [frameOwnedResources, geometryColorTargets, geometryWriteTargets, hij]

/-- Witness for C5's amended theorem at slots 0 and 1. -/
theorem per_slot_resources_unaliased_witness :
    (0 : Nat) ≠ 1 ∧
    ((∀ r ∈ frameOwnedResources 0, r ∉ frameOwnedResources 1) ∧
      (∀ r ∈ geometryColorTargets 0, r ∉ geometryColorTargets 1) ∧
      (geometryColorTargets 0).Nodup ∧
      (∀ r ∈ geometryColorTargets 0, r ∈ frameOwnedResources 0) ∧
      GpuResource.depthStencil ∈ geometryWriteTargets 0 ∧
      GpuResource.depthStencil ∈ geometryWriteTargets 1 ∧
      GpuResource.depthStencil ∉ frameOwnedResources 0) :=
  ⟨by decide, per_slot_resources_unaliased 0 1 (by decide)⟩

/-- C7: `Cleanup` first flushes all outstanding GPU work and then releases
every owned resource; it is idempotent, a second call in succession performs
no GPU work (its flush never blocks), and it is a total function of the
application state, so it is safe on any state a partially failed `Initialize`
can leave behind. -/
theorem cleanup_idempotent (a : AppState) :
    cleanup (cleanup a) = cleanup a ∧
    cleanupGpuWork (cleanup a) = false ∧
    (cleanup a).sched = flushAll a.sched ∧
    (cleanup a).resources = [] ∧
    (∀ i, storedFence (cleanup a).sched i ≤ (cleanup a).sched.completed) ∧
    (∀ n k, cleanup (partialInitState n k) =
      { sched := initState n, resources := [] }) := by
  refine ⟨?_, ?_, rfl, rfl, ?_, ?_⟩
  · simp [cleanup, flushAll_idem]
  · simp only [cleanupGpuWork, cleanup, flushBlocks, flushAll, flushTarget,
      decide_eq_false_iff_not, Nat.not_lt]
    exact Nat.le_max_right _ _
  · intro i
    have h := storedFence_le_flushTarget a.sched i
    have h2 : flushTarget a.sched ≤ (flushAll a.sched).completed := Nat.le_max_right _ _
    exact Nat.le_trans h h2
  · intro n k
    simp [cleanup, partialInitState, flushAll_initState]

/-! ## Monotonicity of the fence counter (C1) -/

/-- No operation ever decreases `latest_fence_value_`. -/
lemma latest_le_applyOp (op : Op) (s : SchedState) :
    s.latestFenceValue ≤ (applyOp op s).latestFenceValue := by
  cases op <;> simp [applyOp, submit, advance, flushAll]

/-- Every fence value assigned during a run exceeds the counter at the
start of the run. -/
lemma lt_of_mem_assignedValues :
    ∀ (ops : List Op) (s : SchedState) (v : Nat),
      v ∈ assignedValues ops s → s.latestFenceValue < v := by
  intro ops
  induction ops with
  | nil => intro s v hv; cases hv
  | cons op ops ih =>
    intro s v hv
    cases op with
    | submit =>
      rcases List.mem_cons.mp hv with h | h
      · omega
      · have := ih (submit s) v h
        simp only [submit] at this
        omega
    | advance =>
      have := ih (applyOp Op.advance s) v hv
      have h2 := latest_le_applyOp Op.advance s
      omega
    | flush =>
      have := ih (applyOp Op.flush s) v hv
      have h2 := latest_le_applyOp Op.flush s
      omega
    | gpu k =>
      have := ih (applyOp (Op.gpu k) s) v hv
      have h2 := latest_le_applyOp (Op.gpu k) s
      omega

/-- C1: fence values form one strictly increasing counter shared across all
slots — in any run, every pair of submissions receives strictly increasing
fence values in submission order, regardless of which slot each submission
used; `submit` stores the newly assigned value in the submitting slot; and a
slot is reuse-safe exactly when the GPU-reported completed counter has reached
its stored value. -/
theorem fence_values_strictly_increasing (ops : List Op) (s : SchedState) :
    List.Pairwise (· < ·) (assignedValues ops s) ∧
    (s.frameIndex < s.fenceValues.length →
      storedFence (submit s) s.frameIndex = s.latestFenceValue + 1) ∧
    (∀ i, reuseSafe s i = true ↔ storedFence s i ≤ s.completed) := by
  refine ⟨?_, ?_, ?_⟩
  · induction ops generalizing s with
    | nil => exact List.Pairwise.nil
    | cons op ops ih =>
      cases op with
      | submit =>
        refine List.pairwise_cons.mpr ⟨?_, ih (submit s)⟩
        intro v hv
        have := lt_of_mem_assignedValues ops (submit s) v hv
        simp only [submit] at this
        omega
      | advance => exact ih (applyOp Op.advance s)
      | flush => exact ih (applyOp Op.flush s)
      | gpu k => exact ih (applyOp (Op.gpu k) s)
  · intro h
    simp [storedFence, submit, List.getD, List.getElem?_set, h]
  · intro i
    simp [reuseSafe]

/-- Witness for C1 at a concrete run and state: three interleaved submissions
from the fresh 2-slot state get the strictly increasing values 1, 2, 3; the
slot-storage equation holds at the fresh state (whose frame index 0 is in
range); and the reuse-safety criterion is the completed-counter comparison. -/
theorem fence_values_strictly_increasing_witness :
    List.Pairwise (· < ·)
      (assignedValues [Op.submit, Op.advance, Op.submit, Op.gpu 1, Op.advance, Op.submit]
        (initState 2)) ∧
    storedFence (submit (initState 2)) (initState 2).frameIndex =
      (initState 2).latestFenceValue + 1 ∧
    (reuseSafe (initState 2) 0 = true ↔ storedFence (initState 2) 0 ≤ (initState 2).completed) :=
  ⟨(fence_values_strictly_increasing
      [Op.submit, Op.advance, Op.submit, Op.gpu 1, Op.advance, Op.submit] (initState 2)).1,
   (fence_values_strictly_increasing [] (initState 2)).2.1 (by decide),
   (fence_values_strictly_increasing [] (initState 2)).2.2 0⟩

/-! ## Error propagation (C8) -/

/-- C8: errors are never partially absorbed.  A synchronization-primitive
failure inside advance, submit or flush_all escalates to the caller as fatal
device loss; a failure in any pass's recording step aborts the whole frame so
that nothing is submitted; any failing frame submits nothing; and a fault-free
frame completes in full, submitting exactly the three-pass stream. -/
theorem errors_escalate_not_absorbed (fenceOk : Bool) (f : PassFaults) (s : SchedState) :
    (fenceOk = false →
      renderFrameE fenceOk f s = Except.error (Sum.inl FatalError.deviceLost) ∧
      advanceE fenceOk s = Except.error FatalError.deviceLost ∧
      submitE fenceOk s = Except.error FatalError.deviceLost ∧
      flushAllE fenceOk s = Except.error FatalError.deviceLost) ∧
    (fenceOk = true → (f.shadowOk && f.geometryOk && f.lightingOk) = false →
      ∃ e, renderFrameE fenceOk f s = Except.error (Sum.inr e)) ∧
    (∀ e, renderFrameE fenceOk f s = Except.error e →
      submissionsOf (renderFrameE fenceOk f s) = []) ∧
    (fenceOk = true → f.shadowOk = true → f.geometryOk = true → f.lightingOk = true →
      renderFrameE fenceOk f s =
        Except.ok (submit (advance s), [Pass.shadowPass, Pass.geometryPass, Pass.lightingPass])) := by
  rcases f with ⟨so, go, lo⟩
  cases fenceOk <;> cases so <;> cases go <;> cases lo <;>
    simp [renderFrameE, advanceE, submitE, flushAllE, recordPasses, submissionsOf]

/-- Witness for C8: the fence fault makes a frame fail fatally; a geometry
recording fault aborts the frame with nothing submitted; the fault-free frame
completes in full. -/
theorem errors_escalate_not_absorbed_witness :
    renderFrameE false ⟨true, true, true⟩ (initState 2) =
      Except.error (Sum.inl FatalError.deviceLost) ∧
    (∃ e, renderFrameE true ⟨true, false, true⟩ (initState 2) = Except.error (Sum.inr e)) ∧
    submissionsOf (renderFrameE true ⟨true, false, true⟩ (initState 2)) = [] ∧
    renderFrameE true ⟨true, true, true⟩ (initState 2) =
      Except.ok (submit (advance (initState 2)),
        [Pass.shadowPass, Pass.geometryPass, Pass.lightingPass]) := by
  have h1 := (errors_escalate_not_absorbed false ⟨true, true, true⟩ (initState 2)).1 rfl
  have h2 := (errors_escalate_not_absorbed true ⟨true, false, true⟩ (initState 2)).2.1 rfl (by decide)
  have h4 := (errors_escalate_not_absorbed true ⟨true, true, true⟩ (initState 2)).2.2.2 rfl rfl rfl rfl
  rcases h2 with ⟨e, he⟩
  have h3 := (errors_escalate_not_absorbed true ⟨true, false, true⟩ (initState 2)).2.2.1
    (Sum.inr e) he
  exact ⟨h1.1, ⟨e, he⟩, h3, h4⟩

/-! ## Frame-index bounds (C9) -/

/-- The invariant: the current frame index is a valid index into
`frames_[kNumFrames]`. -/
def FrameIndexInv (s : SchedState) : Prop :=
  s.frameIndex < s.numFrames

/-- No operation changes the slot count. -/
lemma numFrames_applyOp (op : Op) (s : SchedState) :
    (applyOp op s).numFrames = s.numFrames := by
  cases op <;> rfl

/-- Every operation preserves the frame-index bound. -/
lemma frameIndexInv_applyOp (op : Op) (s : SchedState) (h : FrameIndexInv s) :
    FrameIndexInv (applyOp op s) := by
  cases op with
  | advance =>
    simp only [FrameIndexInv, applyOp, advance, nextIndex] at *
    exact Nat.mod_lt _ (Nat.lt_of_le_of_lt (Nat.zero_le _) h)
  | submit => exact h
  | flush => exact h
  | gpu k => exact h

/-- The bound is preserved by whole runs. -/
lemma frameIndexInv_run (ops : List Op) (s : SchedState) (h : FrameIndexInv s) :
    FrameIndexInv (run ops s) := by
  induction ops generalizing s with
  | nil => exact h
  | cons op ops ih => exact ih (applyOp op s) (frameIndexInv_applyOp op s h)

/-- The slot count is preserved by whole runs. -/
lemma numFrames_run (ops : List Op) (s : SchedState) :
    (run ops s).numFrames = s.numFrames := by
  induction ops generalizing s with
  | nil => rfl
  | cons op ops ih => rw [run, List.foldl_cons, ← run, ih, numFrames_applyOp]

/-- C9: for every sequence of operations from the fresh state with a positive
slot count, the current frame index stays within `0 ≤ frame_index_ <
kNumFrames`, so every access to `frames_` is in bounds, and the next-slot
computation `(current+1) mod kNumFrames` also never leaves the array. -/
theorem frame_index_in_bounds (n : Nat) (ops : List Op) (hn : 0 < n) :
    (run ops (initState n)).frameIndex < (run ops (initState n)).numFrames ∧
    (run ops (initState n)).numFrames = n ∧
    nextIndex (run ops (initState n)) < (run ops (initState n)).numFrames := by
  have hinv : FrameIndexInv (run ops (initState n)) :=
    frameIndexInv_run ops (initState n) hn
  have hnum : (run ops (initState n)).numFrames = n := numFrames_run ops (initState n)
  refine ⟨hinv, hnum, ?_⟩
  exact Nat.mod_lt _ (by omega)

/-- Witness for C9 at 2 slots and a concrete operation sequence. -/
theorem frame_index_in_bounds_witness :
    0 < 2 ∧
    ((run [Op.submit, Op.advance, Op.submit, Op.gpu 2, Op.advance, Op.flush]
        (initState 2)).frameIndex <
      (run [Op.submit, Op.advance, Op.submit, Op.gpu 2, Op.advance, Op.flush]
        (initState 2)).numFrames ∧
     (run [Op.submit, Op.advance, Op.submit, Op.gpu 2, Op.advance, Op.flush]
        (initState 2)).numFrames = 2 ∧
     nextIndex (run [Op.submit, Op.advance, Op.submit, Op.gpu 2, Op.advance, Op.flush]
        (initState 2)) <
      (run [Op.submit, Op.advance, Op.submit, Op.gpu 2, Op.advance, Op.flush]
        (initState 2)).numFrames) :=
  ⟨by decide,
   frame_index_in_bounds 2 [Op.submit, Op.advance, Op.submit, Op.gpu 2, Op.advance, Op.flush]
     (by decide)⟩

/-! ## The first frames after initialization (C10) -/

/-- The canonical render loop from the fresh state: each frame advances to the
next slot and then submits its recorded stream, matching `renderFrame`'s state
update `submit (advance s)`. -/
def frameTrace : Nat → List Op
  | 0 => []
  | k + 1 => frameTrace k ++ [Op.advance, Op.submit]

/-- Runs compose over concatenation. -/
lemma run_append (l1 l2 : List Op) (s : SchedState) :
    run (l1 ++ l2) s = run l2 (run l1 s) := by
  simp [run, List.foldl_append]

/-- One more frame of the canonical loop is an `advance` followed by a
`submit`. -/
lemma frameTrace_succ (n f : Nat) :
    run (frameTrace (f + 1)) (initState n) =
      submit (advance (run (frameTrace f) (initState n))) := by
  rw [frameTrace, run_append]
  rfl

/-- Every slot's stored fence value is zero in the fresh state. -/
lemma storedFence_initState (n i : Nat) : storedFence (initState n) i = 0 := by
  by_cases h : i < n <;>
    simp [storedFence, initState, List.getD, List.getElem?_replicate, h]

/-- Invariant of the canonical loop during the first `n` frames: the GPU has
never been waited on (completed counter still 0), the frame index equals the
frame number, and slot 0 and every slot beyond the last submitted one still
store fence value 0. -/
lemma frameTrace_inv (n : Nat) :
    ∀ f, f < n →
      (run (frameTrace f) (initState n)).completed = 0 ∧
      (run (frameTrace f) (initState n)).frameIndex = f ∧
      (run (frameTrace f) (initState n)).numFrames = n ∧
      (run (frameTrace f) (initState n)).fenceValues.length = n ∧
      (∀ i, i = 0 ∨ f < i → storedFence (run (frameTrace f) (initState n)) i = 0) := by
  intro f
  induction f with
  | zero =>
    intro _
    refine ⟨rfl, rfl, rfl, by simp [frameTrace, run, initState], ?_⟩
    intro i _
    exact storedFence_initState n i
  | succ f ih =>
    intro hf
    obtain ⟨hc, hidx, hnum, hlen, hst⟩ := ih (Nat.lt_of_succ_lt hf)
    rw [frameTrace_succ]
    have hnext : nextIndex (run (frameTrace f) (initState n)) = f + 1 := by
      simp [nextIndex, hidx, hnum, Nat.mod_eq_of_lt hf]
    have htar : advanceTarget (run (frameTrace f) (initState n)) = 0 := by
      rw [advanceTarget, hnext]
      exact hst (f + 1) (Or.inr (Nat.lt_succ_self f))
    refine ⟨?_, ?_, ?_, ?_, ?_⟩
    · simp [submit, advance, htar, hc]
    · simp [submit, advance, hnext]
    · simpa [submit, advance] using hnum
    · simpa [submit, advance, List.length_set] using hlen
    · intro i hi
      have hne : f + 1 ≠ i := by rcases hi with rfl | h <;> omega
      have h0 : storedFence (run (frameTrace f) (initState n)) i = 0 := by
        refine hst i ?_
        rcases hi with rfl | h
        · exact Or.inl rfl
        · exact Or.inr (by omega)
      simpa [storedFence, submit, advance, hnext, List.getD, List.getElem?_set, hne]
        using h0

/-- C10: in the freshly constructed state every slot's stored fence value, the
global counter and the completed counter are all zero, so the reuse condition
holds vacuously for every slot; consequently none of the advances of the first
`kNumFrames` frames of the canonical render loop — each entering its slot for
the first time — ever blocks waiting on the fence. -/
theorem first_frames_never_block (n : Nat) :
    (initState n).latestFenceValue = 0 ∧
    (initState n).completed = 0 ∧
    (∀ i, storedFence (initState n) i = 0 ∧ reuseSafe (initState n) i = true) ∧
    (∀ f, f < n → advanceBlocks (run (frameTrace f) (initState n)) = false) := by
  refine ⟨rfl, rfl, ?_, ?_⟩
  · intro i
    have h := storedFence_initState n i
    exact ⟨h, by simp [reuseSafe, h]⟩
  · intro f hf
    obtain ⟨hc, hidx, hnum, hlen, hst⟩ := frameTrace_inv n f hf
    have htar : advanceTarget (run (frameTrace f) (initState n)) = 0 := by
      rcases Nat.lt_or_ge (f + 1) n with h1 | h1
      · have hnext : nextIndex (run (frameTrace f) (initState n)) = f + 1 := by
          simp [nextIndex, hidx, hnum, Nat.mod_eq_of_lt h1]
        rw [advanceTarget, hnext]
        exact hst (f + 1) (Or.inr (Nat.lt_succ_self f))
      · have hfe : f + 1 = n := by omega
        have hnext : nextIndex (run (frameTrace f) (initState n)) = 0 := by
          simp [nextIndex, hidx, hnum, hfe]
        rw [advanceTarget, hnext]
        exact hst 0 (Or.inl rfl)
    simp [advanceBlocks, htar, hc]

/-- Witness for C10 with 3 slots: none of the three first frames' advances
blocks, and slot 0 is reuse-safe in the fresh state. -/
theorem first_frames_never_block_witness :
    advanceBlocks (run (frameTrace 0) (initState 3)) = false ∧
    advanceBlocks (run (frameTrace 1) (initState 3)) = false ∧
    advanceBlocks (run (frameTrace 2) (initState 3)) = false ∧
    storedFence (initState 3) 0 = 0 ∧
    reuseSafe (initState 3) 0 = true :=
  ⟨(first_frames_never_block 3).2.2.2 0 (by decide),
   (first_frames_never_block 3).2.2.2 1 (by decide),
   (first_frames_never_block 3).2.2.2 2 (by decide),
   ((first_frames_never_block 3).2.2.1 0).1,
   ((first_frames_never_block 3).2.2.1 0).2⟩

/-! ## Upload round-trip (C6) -/

/-- `getD` looks into the left part of an append below its length. -/
lemma getD_append_left {α : Type} (l l' : List α) (d : α) (i : Nat)
    (h : i < l.length) : (l ++ l').getD i d = l.getD i d := by
  simp [List.getD, List.getElem?_append_left h]

/-- `getD` at the old length of a list extended by one element yields that
element. -/
lemma getD_append_length {α : Type} (l : List α) (a d : α) :
    (l ++ [a]).getD l.length d = a := by
  simp [List.getD, List.getElem?_append_right (Nat.le_refl l.length)]

/-- `getD` after an in-range `set` at the same index yields the new value. -/
lemma getD_set_self {α : Type} (l : List α) (i : Nat) (a d : α)
    (h : i < l.length) : (l.set i a).getD i d = a := by
  simp [List.getD, List.getElem?_set, h]

/-- A copy never changes how many destination buffers there are. -/
lemma applyCopy_length (ubs : List StagingBuffer) (bufs : List Bytes) (c : CopyCmd) :
    (applyCopy ubs bufs c).length = bufs.length := by
  simp [applyCopy]

/-- A sane copy never changes any destination buffer's length. -/
lemma applyCopy_getD_length (ubs : List StagingBuffer) (bufs : List Bytes)
    (c : CopyCmd) (hsrc : (ubs.getD c.src ⟨0, []⟩).contents.length = c.size)
    (hdst : c.dst < bufs.length)
    (hsz : c.size ≤ (bufs.getD c.dst []).length) (i : Nat) :
    ((applyCopy ubs bufs c).getD i []).length = (bufs.getD i []).length := by
  by_cases hi : c.dst = i
  · subst hi
    rw [applyCopy, getD_set_self _ _ _ _ hdst]
    simp only [List.length_append, List.length_take, List.length_drop, hsrc]
    omega
  · simp [applyCopy, List.getD, List.getElem?_set, hi]

/-- Executing a list of sane copies preserves the number of destination
buffers and every destination buffer's length. -/
lemma foldl_applyCopy_preserves (ubs : List StagingBuffer) :
    ∀ (pc : List CopyCmd) (bufs : List Bytes),
      (∀ c ∈ pc, copyOK ubs bufs c) →
      (pc.foldl (applyCopy ubs) bufs).length = bufs.length ∧
      (∀ i, ((pc.foldl (applyCopy ubs) bufs).getD i []).length =
        (bufs.getD i []).length) := by
  intro pc
  induction pc with
  | nil => exact fun bufs _ => ⟨rfl, fun _ => rfl⟩
  | cons c pc ih =>
    intro bufs h
    have hc := h c (List.mem_cons_self c pc)
    have hlen := applyCopy_length ubs bufs c
    have hgetD := fun i =>
      applyCopy_getD_length ubs bufs c hc.2.1 hc.2.2.1 hc.2.2.2 i
    have hrest : ∀ c' ∈ pc, copyOK ubs (applyCopy ubs bufs c) c' := by
      intro c' hc'
      have h' := h c' (List.mem_cons_of_mem c hc')
      exact ⟨h'.1, h'.2.1, by rw [hlen]; exact h'.2.2.1,
        by rw [hgetD]; exact h'.2.2.2⟩
    obtain ⟨h1, h2⟩ := ih (applyCopy ubs bufs c) hrest
    constructor
    · rw [List.foldl_cons, h1, hlen]
    · intro i
      rw [List.foldl_cons, h2 i, hgetD i]

/-- C6: for every byte sequence and every destination buffer already sized to
hold it, `UploadDataToBuffer` copies the data into a staging buffer of
sufficient size, records a staging-to-destination copy after all previously
recorded ones, retains both the new and all previously retained staging
buffers in the process-owned collection, and reading the destination back
after a full flush yields content byte-identical to the input, with the
destination's size unchanged. -/
theorem upload_roundtrip (s : UploadState) (data : Bytes) (dst : Nat)
    (hwf : uploadWF s) (hdst : dst < s.dstBuffers.length)
    (hfit : data.length ≤ (s.dstBuffers.getD dst []).length) :
    ((⟨data.length, data⟩ : StagingBuffer) ∈
        (uploadDataToBuffer data dst s).uploadBuffers ∧
      data.length ≤ (StagingBuffer.mk data.length data).size) ∧
    (∀ sb ∈ s.uploadBuffers, sb ∈ (uploadDataToBuffer data dst s).uploadBuffers) ∧
    (uploadDataToBuffer data dst s).pendingCopies =
      s.pendingCopies ++ [⟨s.uploadBuffers.length, dst, data.length⟩] ∧
    (readBack (flushUploads (uploadDataToBuffer data dst s)) dst).take data.length
      = data ∧
    (readBack (flushUploads (uploadDataToBuffer data dst s)) dst).length =
      (readBack s dst).length := by
  refine ⟨⟨?_, Nat.le_refl _⟩, ?_, rfl, ?_⟩
  · simp [uploadDataToBuffer]
  · intro sb hsb
    simp [uploadDataToBuffer, hsb]
  · -- the flushed destination contents
    have hok : ∀ c ∈ s.pendingCopies,
        copyOK (s.uploadBuffers ++ [⟨data.length, data⟩]) s.dstBuffers c := by
      intro c hc
      obtain ⟨h1, h2, h3, h4⟩ := hwf c hc
      refine ⟨by simp; omega, ?_, h3, h4⟩
      rw [getD_append_left _ _ _ _ h1]
      exact h2
    obtain ⟨hmidlen, hmidgetD⟩ :=
      foldl_applyCopy_preserves (s.uploadBuffers ++ [⟨data.length, data⟩])
        s.pendingCopies s.dstBuffers hok
    have hfold :
        (flushUploads (uploadDataToBuffer data dst s)).dstBuffers =
          applyCopy (s.uploadBuffers ++ [⟨data.length, data⟩])
            (s.pendingCopies.foldl
              (applyCopy (s.uploadBuffers ++ [⟨data.length, data⟩])) s.dstBuffers)
            ⟨s.uploadBuffers.length, dst, data.length⟩ := by
      simp [flushUploads, uploadDataToBuffer, List.foldl_append]
    have hstaging :
        (s.uploadBuffers ++ [(⟨data.length, data⟩ : StagingBuffer)]).getD
          s.uploadBuffers.length ⟨0, []⟩ = ⟨data.length, data⟩ :=
      getD_append_length s.uploadBuffers _ _
    have hdstmid : dst <
        (s.pendingCopies.foldl
          (applyCopy (s.uploadBuffers ++ [⟨data.length, data⟩])) s.dstBuffers).length := by
      rw [hmidlen]; exact hdst
    have hread :
        readBack (flushUploads (uploadDataToBuffer data dst s)) dst =
          data ++
            ((s.pendingCopies.foldl
              (applyCopy (s.uploadBuffers ++ [⟨data.length, data⟩]))
                s.dstBuffers).getD dst []).drop data.length := by
      rw [readBack, hfold, applyCopy]
      simp only [hstaging]
      rw [getD_set_self _ _ _ _ hdstmid, List.take_length]
    constructor
    · rw [hread]
      exact List.take_left data _
    · rw [hread]
      simp only [List.length_append, List.length_drop, hmidgetD dst, readBack]
      have := hmidgetD dst
      omega

/-- Witness for C6: uploading the bytes 7, 8, 9 into a four-byte destination
buffer of a fresh uploader and flushing reads back exactly 7, 8, 9. -/
theorem upload_roundtrip_witness :
    uploadWF ⟨[], [], [[0, 0, 0, 0]]⟩ ∧
    0 < (UploadState.mk [] [] [[0, 0, 0, 0]]).dstBuffers.length ∧
    ([7, 8, 9] : Bytes).length ≤
      ((UploadState.mk [] [] [[0, 0, 0, 0]]).dstBuffers.getD 0 []).length ∧
    (readBack (flushUploads (uploadDataToBuffer [7, 8, 9] 0 ⟨[], [], [[0, 0, 0, 0]]⟩)) 0).take
      ([7, 8, 9] : Bytes).length = [7, 8, 9] := by
  have h := upload_roundtrip ⟨[], [], [[0, 0, 0, 0]]⟩ [7, 8, 9] 0
    (by intro c hc; cases hc) (by decide) (by decide)
  exact ⟨(fun c hc => nomatch hc), by decide, by decide, h.2.2.2.1⟩

end DeferredShading
